import Mathlib

/-!
# Verification of the gcv-client annotation data model (src/lib.rs)

Shallow embedding of the Rust library `gcv-client`: a client for a cloud
OCR service.  The embedding covers the parts the specification's claims
are about:

* the JSON payload values and the `serde_json`-style navigation used by
  the `Response` accessors (`value["key"]`, `value[0]`, `as_array`,
  `is_object`, `to_string`);
* the typed data model (`Point`, `Polygon`, ` TextAnnotation`,
  `BoundingBox`, the `Symbol`/`Word`/`Paragraph`/`Block`/`Page`/
  ` FullTextAnnotation` tree) together with the serde-derived structural
  decoders (and, for the `Serialize` types, encoders);
* the geometry operations `left_top` / `width` / `height` on
  `BoundingBox` (Rust `i64` arithmetic, so subtraction is modelled with
  explicit wrap-around at 2^64, and the out-of-bounds `Vec` indexing
  panic is modelled by `Option`);
* the two `Response` accessors `text_annotations` and
  `full_text_annotations`, whose Rust bodies can return `Ok`, return
  `Err`, or panic (`expect`), modelled by the three-valued `RustResult`;
* the error check on the raw reply in `Client::request` (the part of
  `request` after the transport produced a JSON payload).

Machine integers: Rust `i64` values are modelled as `Int` together with
the range predicate `i64InRange`; the release-mode wrap-around of `i64`
subtraction is `i64Wrap`.  Rust `f64` fields (`confidence`) are carried
exactly as `Rat`: no claim computes with them, they are decoded and
stored unchanged, so an exact carrier is faithful.  The textual
rendering of a float (serde_json uses ryu) is abstracted; no claim
serializes a float.
-/

namespace Gcv

/-- A JSON value as held by `serde_json::Value`.  Integral numbers
(`serde_json`'s `u64`/`i64` variants) and floating numbers (`f64`) are
kept apart, because serde's `i64` deserializer accepts only the former.
Objects are the post-parse maps, listed in insertion order. -/
inductive Json where
  | null
  | bool (b : Bool)
  | intNum (n : Int)
  | floatNum (q : Rat)
  | str (s : String)
  | arr (xs : List Json)
  | obj (kvs : List (String × Json))
deriving Inhabited

/-- Rust `&value[key]` on a shared `serde_json::Value`: field of an object,
`Null` on a missing key or a non-object. -/
def Json.getKey : Json → String → Json
  | .obj kvs, k => (kvs.lookup k).getD .null
  | _, _ => .null

/-- Rust `&value[i]` on a shared `serde_json::Value`: element of an array,
`Null` out of bounds or on a non-array. -/
def Json.getIdx : Json → Nat → Json
  | .arr xs, i => (xs.get? i).getD .null
  | _, _ => .null

/-- Model of `Value::as_array`. -/
def Json.as_array : Json → Option (List Json)
  | .arr xs => some xs
  | _ => none

/-- Model of `Value::is_object`. -/
def Json.is_object : Json → Bool
  | .obj _ => true
  | _ => false

/-- JSON string escaping as in serde_json's compact `Display`. -/
def jsonEscapeChar (c : Char) : String :=
  if c = '"' then "\\\""
  else if c = '\\' then "\\\\"
  else if c = '\n' then "\\n"
  else if c = '\r' then "\\r"
  else if c = '\t' then "\\t"
  else if c.toNat < 32 then "\\u" ++ (Nat.toDigits 16 c.toNat).asString
  else String.singleton c

def jsonEscape (s : String) : String :=
  s.data.foldl (fun acc c => acc ++ jsonEscapeChar c) ""

mutual
/-- Compact serialization, `serde_json`'s `Display for Value` /
`to_string()`.  Float rendering is abstracted (exact `Rat` shown as a
decimal-free literal); no claim serializes a float. -/
def Json.toString : Json → String
  | .null => "null"
  | .bool true => "true"
  | .bool false => "false"
  | .intNum n => ToString.toString n
  | .floatNum q => ToString.toString q.num ++ "e0/" ++ ToString.toString q.den
  | .str s => "\"" ++ jsonEscape s ++ "\""
  | .arr xs => "[" ++ Json.arrToString xs ++ "]"
  | .obj kvs => "\x7b" ++ Json.objToString kvs ++ "\x7d"

def Json.arrToString : List Json → String
  | [] => ""
  | [x] => Json.toString x
  | x :: xs => Json.toString x ++ "," ++ Json.arrToString xs

def Json.objToString : List (String × Json) → String
  | [] => ""
  | [(k, v)] => "\"" ++ jsonEscape k ++ "\":" ++ Json.toString v
  | (k, v) :: kvs =>
      "\"" ++ jsonEscape k ++ "\":" ++ Json.toString v ++ "," ++ Json.objToString kvs
end

/-! ## Machine-integer model for `i64` -/

def i64Min : Int := -(2 ^ 63)
def i64Max : Int := 2 ^ 63 - 1

def i64InRange (n : Int) : Prop := i64Min ≤ n ∧ n ≤ i64Max

instance (n : Int) : Decidable (i64InRange n) := by
  unfold i64InRange; infer_instance

/-- Wrap an integer into the `i64` range (two's complement, the
release-mode behavior of Rust integer arithmetic). -/
def i64Wrap (n : Int) : Int := (n + 2 ^ 63) % 2 ^ 64 - 2 ^ 63

/-- Rust `i64` subtraction (release mode: wrap-around on overflow). -/
def i64Sub (a b : Int) : Int := i64Wrap (a - b)

/-! ## The typed data model (structs of src/lib.rs) -/

/-- Rust `struct Point { x: i64, y: i64 }` — both coordinates required. -/
structure Point where
  x : Int
  y : Int
deriving DecidableEq, Repr

/-- Rust `struct Polygon { vertices: Vec<Point> }` (flat model). -/
structure Polygon where
  vertices : List Point
deriving DecidableEq, Repr

/-- Rust `struct TextAnnotation { locale: Option<String>, description: String,
boundingPoly: Polygon }`. -/
structure TextAnnotation where
  locale : Option String
  description : String
  bounding_poly : Polygon
deriving DecidableEq, Repr

/-- Rust `struct BoundingBox { vertices: Vec<Point> }` (hierarchical model).
A distinct type from `Polygon` in the source, with the same shape. -/
structure BoundingBox where
  vertices : List Point
deriving DecidableEq, Repr

/-- Exact carrier for the `f64` `confidence` fields (stored, never
computed with). -/
abbrev F64 := Rat

/-- Rust `struct Symbol { boundingBox, confidence, text }`. -/
structure Symbol where
  bounding_box : BoundingBox
  confidence : F64
  text : String
deriving DecidableEq, Repr

/-- Rust `struct Word { boundingBox, confidence, symbols }`. -/
structure Word where
  bounding_box : BoundingBox
  confidence : F64
  symbols : List Symbol
deriving DecidableEq, Repr

/-- Rust `struct Paragraph { boundingBox, confidence, words }`. -/
structure Paragraph where
  bounding_box : BoundingBox
  confidence : F64
  words : List Word
deriving DecidableEq, Repr

/-- Rust `struct Block { blockType, boundingBox, confidence, paragraphs }`. -/
structure Block where
  block_type : String
  bounding_box : BoundingBox
  confidence : F64
  paragraphs : List Paragraph
deriving DecidableEq, Repr

/-- Rust `struct Page { blocks: Vec<Block> }`. -/
structure Page where
  blocks : List Block
deriving DecidableEq, Repr

/-- Rust `struct FullTextAnnotation { pages: Vec<Page> }`. -/
structure FullTextAnnotation where
  pages : List Page
deriving DecidableEq, Repr

/-! ## Geometry operations on `BoundingBox`

Rust indexes the `Vec` directly (`self.vertices[1]`), which panics when
the index is out of bounds; the panic is modelled by `none`. -/

/-- Rust `pub fn left_top(&self) -> Point { self.vertices[1] }`. -/
def BoundingBox.left_top (bb : BoundingBox) : Option Point :=
  bb.vertices.get? 1

/-- Rust `pub fn width(&self) -> i64 { &self.vertices[3].x - &self.vertices[1].x }`
(the left operand's indexing is evaluated first). -/
def BoundingBox.width (bb : BoundingBox) : Option Int := do
  let v3 ← bb.vertices.get? 3
  let v1 ← bb.vertices.get? 1
  pure (i64Sub v3.x v1.x)

/-- Rust `pub fn height(&self) -> i64 { &self.vertices[3].y - &self.vertices[1].y }`. -/
def BoundingBox.height (bb : BoundingBox) : Option Int := do
  let v3 ← bb.vertices.get? 3
  let v1 ← bb.vertices.get? 1
  pure (i64Sub v3.y v1.y)

/-! ## Structural decoders (serde's derived `Deserialize`)

Each struct's derived deserializer visits the entries of a JSON object
in order, matching field names (ignoring unknown fields, rejecting a
duplicate), and at the end reports the first missing required field in
declaration order; a missing `Option` field becomes `none`.  serde's
error *messages* are abstracted to short fixed strings ("invalid type",
"missing field ..."): no claim depends on their exact text. -/

/-- serde's `i64` deserializer out of a `serde_json::Value`: accepts
only integral numbers that fit in `i64`. -/
def decodeI64 : Json → Except String Int
  | .intNum n => if i64InRange n then .ok n else .error "number out of i64 range"
  | _ => .error "invalid type"

/-- serde's `f64` deserializer out of a `serde_json::Value`: accepts
any JSON number. -/
def decodeF64 : Json → Except String F64
  | .intNum n => .ok (n : Rat)
  | .floatNum q => .ok q
  | _ => .error "invalid type"

def decodeString : Json → Except String String
  | .str s => .ok s
  | _ => .error "invalid type"

/-- serde's `Option<String>`: `null` decodes to `none`. -/
def decodeOptString : Json → Except String (Option String)
  | .null => .ok none
  | .str s => .ok (some s)
  | _ => .error "invalid type"

/-- Rust `Vec<T>` element loop: decode in order, fail-fast on the first bad
element. -/
def decodeListWith (f : Json → Except String α) : List Json → Except String (List α)
  | [] => .ok []
  | x :: xs => do
      let a ← f x
      let as ← decodeListWith f xs
      .ok (a :: as)

/-- serde's `Vec<T>` deserializer: requires an array. -/
def decodeVec (f : Json → Except String α) : Json → Except String (List α)
  | .arr xs => decodeListWith f xs
  | _ => .error "invalid type"

/-- Field loop of `Point`'s derived deserializer (`x`, `y`, both
required `i64`). -/
def decodePointGo : List (String × Json) → Option Int → Option Int → Except String Point
  | [], some x, some y => .ok ⟨x, y⟩
  | [], none, _ => .error "missing field x"
  | [], some _, none => .error "missing field y"
  | (k, v) :: rest, x?, y? =>
      if k = "x" then
        match x? with
        | some _ => .error "duplicate field x"
        | none => do
            let n ← decodeI64 v
            decodePointGo rest (some n) y?
      else if k = "y" then
        match y? with
        | some _ => .error "duplicate field y"
        | none => do
            let n ← decodeI64 v
            decodePointGo rest x? (some n)
      else decodePointGo rest x? y?

def decodePoint : Json → Except String Point
  | .obj kvs => decodePointGo kvs none none
  | _ => .error "invalid type"

/-- Field loop of `Polygon`'s derived deserializer (`vertices`,
required `Vec<Point>`). -/
def decodePolygonGo : List (String × Json) → Option (List Point) → Except String Polygon
  | [], some vs => .ok ⟨vs⟩
  | [], none => .error "missing field vertices"
  | (k, v) :: rest, vs? =>
      if k = "vertices" then
        match vs? with
        | some _ => .error "duplicate field vertices"
        | none => do
            let vs ← decodeVec decodePoint v
            decodePolygonGo rest (some vs)
      else decodePolygonGo rest vs?

def decodePolygon : Json → Except String Polygon
  | .obj kvs => decodePolygonGo kvs none
  | _ => .error "invalid type"

/-- Field loop of `BoundingBox`'s derived deserializer — the same shape
as `Polygon`'s, derived independently in the source. -/
def decodeBBGo : List (String × Json) → Option (List Point) → Except String BoundingBox
  | [], some vs => .ok ⟨vs⟩
  | [], none => .error "missing field vertices"
  | (k, v) :: rest, vs? =>
      if k = "vertices" then
        match vs? with
        | some _ => .error "duplicate field vertices"
        | none => do
            let vs ← decodeVec decodePoint v
            decodeBBGo rest (some vs)
      else decodeBBGo rest vs?

def decodeBB : Json → Except String BoundingBox
  | .obj kvs => decodeBBGo kvs none
  | _ => .error "invalid type"

/-- Field loop of ` TextAnnotation`'s derived deserializer (`locale` is
an `Option` and defaults to `none` when the field is missing;
`description` and `boundingPoly` are required). -/
def decodeTAGo : List (String × Json) → Option (Option String) → Option String →
    Option Polygon → Except String TextAnnotation
  | [], l?, some d, some p => .ok ⟨l?.getD none, d, p⟩
  | [], _, none, _ => .error "missing field description"
  | [], _, some _, none => .error "missing field boundingPoly"
  | (k, v) :: rest, l?, d?, p? =>
      if k = "locale" then
        match l? with
        | some _ => .error "duplicate field locale"
        | none => do
            let l ← decodeOptString v
            decodeTAGo rest (some l) d? p?
      else if k = "description" then
        match d? with
        | some _ => .error "duplicate field description"
        | none => do
            let d ← decodeString v
            decodeTAGo rest l? (some d) p?
      else if k = "boundingPoly" then
        match p? with
        | some _ => .error "duplicate field boundingPoly"
        | none => do
            let p ← decodePolygon v
            decodeTAGo rest l? d? (some p)
      else decodeTAGo rest l? d? p?

def decodeTA : Json → Except String TextAnnotation
  | .obj kvs => decodeTAGo kvs none none none
  | _ => .error "invalid type"

/-- Field loop of `Symbol`'s derived deserializer. -/
def decodeSymbolGo : List (String × Json) → Option BoundingBox → Option F64 →
    Option String → Except String Symbol
  | [], some bb, some c, some t => .ok ⟨bb, c, t⟩
  | [], none, _, _ => .error "missing field boundingBox"
  | [], some _, none, _ => .error "missing field confidence"
  | [], some _, some _, none => .error "missing field text"
  | (k, v) :: rest, bb?, c?, t? =>
      if k = "boundingBox" then
        match bb? with
        | some _ => .error "duplicate field boundingBox"
        | none => do
            let bb ← decodeBB v
            decodeSymbolGo rest (some bb) c? t?
      else if k = "confidence" then
        match c? with
        | some _ => .error "duplicate field confidence"
        | none => do
            let c ← decodeF64 v
            decodeSymbolGo rest bb? (some c) t?
      else if k = "text" then
        match t? with
        | some _ => .error "duplicate field text"
        | none => do
            let t ← decodeString v
            decodeSymbolGo rest bb? c? (some t)
      else decodeSymbolGo rest bb? c? t?

def decodeSymbol : Json → Except String Symbol
  | .obj kvs => decodeSymbolGo kvs none none none
  | _ => .error "invalid type"

/-- Field loop of `Word`'s derived deserializer. -/
def decodeWordGo : List (String × Json) → Option BoundingBox → Option F64 →
    Option (List Symbol) → Except String Word
  | [], some bb, some c, some ss => .ok ⟨bb, c, ss⟩
  | [], none, _, _ => .error "missing field boundingBox"
  | [], some _, none, _ => .error "missing field confidence"
  | [], some _, some _, none => .error "missing field symbols"
  | (k, v) :: rest, bb?, c?, ss? =>
      if k = "boundingBox" then
        match bb? with
        | some _ => .error "duplicate field boundingBox"
        | none => do
            let bb ← decodeBB v
            decodeWordGo rest (some bb) c? ss?
      else if k = "confidence" then
        match c? with
        | some _ => .error "duplicate field confidence"
        | none => do
            let c ← decodeF64 v
            decodeWordGo rest bb? (some c) ss?
      else if k = "symbols" then
        match ss? with
        | some _ => .error "duplicate field symbols"
        | none => do
            let ss ← decodeVec decodeSymbol v
            decodeWordGo rest bb? c? (some ss)
      else decodeWordGo rest bb? c? ss?

def decodeWord : Json → Except String Word
  | .obj kvs => decodeWordGo kvs none none none
  | _ => .error "invalid type"

/-- Field loop of `Paragraph`'s derived deserializer. -/
def decodeParagraphGo : List (String × Json) → Option BoundingBox → Option F64 →
    Option (List Word) → Except String Paragraph
  | [], some bb, some c, some ws => .ok ⟨bb, c, ws⟩
  | [], none, _, _ => .error "missing field boundingBox"
  | [], some _, none, _ => .error "missing field confidence"
  | [], some _, some _, none => .error "missing field words"
  | (k, v) :: rest, bb?, c?, ws? =>
      if k = "boundingBox" then
        match bb? with
        | some _ => .error "duplicate field boundingBox"
        | none => do
            let bb ← decodeBB v
            decodeParagraphGo rest (some bb) c? ws?
      else if k = "confidence" then
        match c? with
        | some _ => .error "duplicate field confidence"
        | none => do
            let c ← decodeF64 v
            decodeParagraphGo rest bb? (some c) ws?
      else if k = "words" then
        match ws? with
        | some _ => .error "duplicate field words"
        | none => do
            let ws ← decodeVec decodeWord v
            decodeParagraphGo rest bb? c? (some ws)
      else decodeParagraphGo rest bb? c? ws?

def decodeParagraph : Json → Except String Paragraph
  | .obj kvs => decodeParagraphGo kvs none none none
  | _ => .error "invalid type"

/-- Field loop of `Block`'s derived deserializer (`blockType`,
`boundingBox`, `confidence`, `paragraphs`, all required). -/
def decodeBlockGo : List (String × Json) → Option String → Option BoundingBox →
    Option F64 → Option (List Paragraph) → Except String Block
  | [], some bt, some bb, some c, some ps => .ok ⟨bt, bb, c, ps⟩
  | [], none, _, _, _ => .error "missing field blockType"
  | [], some _, none, _, _ => .error "missing field boundingBox"
  | [], some _, some _, none, _ => .error "missing field confidence"
  | [], some _, some _, some _, none => .error "missing field paragraphs"
  | (k, v) :: rest, bt?, bb?, c?, ps? =>
      if k = "blockType" then
        match bt? with
        | some _ => .error "duplicate field blockType"
        | none => do
            let bt ← decodeString v
            decodeBlockGo rest (some bt) bb? c? ps?
      else if k = "boundingBox" then
        match bb? with
        | some _ => .error "duplicate field boundingBox"
        | none => do
            let bb ← decodeBB v
            decodeBlockGo rest bt? (some bb) c? ps?
      else if k = "confidence" then
        match c? with
        | some _ => .error "duplicate field confidence"
        | none => do
            let c ← decodeF64 v
            decodeBlockGo rest bt? bb? (some c) ps?
      else if k = "paragraphs" then
        match ps? with
        | some _ => .error "duplicate field paragraphs"
        | none => do
            let ps ← decodeVec decodeParagraph v
            decodeBlockGo rest bt? bb? c? (some ps)
      else decodeBlockGo rest bt? bb? c? ps?

def decodeBlock : Json → Except String Block
  | .obj kvs => decodeBlockGo kvs none none none none
  | _ => .error "invalid type"

/-- Field loop of `Page`'s derived deserializer. -/
def decodePageGo : List (String × Json) → Option (List Block) → Except String Page
  | [], some bs => .ok ⟨bs⟩
  | [], none => .error "missing field blocks"
  | (k, v) :: rest, bs? =>
      if k = "blocks" then
        match bs? with
        | some _ => .error "duplicate field blocks"
        | none => do
            let bs ← decodeVec decodeBlock v
            decodePageGo rest (some bs)
      else decodePageGo rest bs?

def decodePage : Json → Except String Page
  | .obj kvs => decodePageGo kvs none
  | _ => .error "invalid type"

/-- Field loop of ` FullTextAnnotation`'s derived deserializer. -/
def decodeFTAGo : List (String × Json) → Option (List Page) → Except String FullTextAnnotation
  | [], some ps => .ok ⟨ps⟩
  | [], none => .error "missing field pages"
  | (k, v) :: rest, ps? =>
      if k = "pages" then
        match ps? with
        | some _ => .error "duplicate field pages"
        | none => do
            let ps ← decodeVec decodePage v
            decodeFTAGo rest (some ps)
      else decodeFTAGo rest ps?

/-- Structural decoding of the whole page→block→paragraph→word→symbol
tree in one pass. -/
def decodeFTA : Json → Except String FullTextAnnotation
  | .obj kvs => decodeFTAGo kvs none
  | _ => .error "invalid type"

/-! ## Encoders (serde's derived `Serialize`, for the `Serialize` types) -/

def encodePoint (p : Point) : Json :=
  .obj [("x", .intNum p.x), ("y", .intNum p.y)]

def encodePolygon (p : Polygon) : Json :=
  .obj [("vertices", .arr (p.vertices.map encodePoint))]

/-- serde serializes `None` as `null` (no skip attribute on the field). -/
def encodeOptString : Option String → Json
  | none => .null
  | some s => .str s

def encodeTA (t : TextAnnotation) : Json :=
  .obj [("locale", encodeOptString t.locale),
        ("description", .str t.description),
        ("boundingPoly", encodePolygon t.bounding_poly)]

/-! ## Errors, results, and the `Response` accessors -/

/-- The spec's error taxonomy for the errors this layer returns
(§7 of the spec): a schema/decode failure or a service-reported error. -/
inductive GcvError where
  | SchemaError (msg : String)
  | ServiceError (msg : String)
deriving DecidableEq, Repr

/-- Outcome of a Rust call that can return `Ok`, return `Err`, or
panic (`expect`/index out of bounds). -/
inductive RustResult (α : Type) where
  | ok (a : α)
  | err (e : GcvError)
  | panicked (msg : String)
deriving DecidableEq, Repr

/-- Rust `pub struct Response { response: Value }`. -/
structure Response where
  response : Json

/-- Fail-fast decoding of the `textAnnotations` array's elements. -/
def decodeTAList : List Json → Except String (List TextAnnotation) :=
  decodeListWith decodeTA

/-- Model of `Response::text_annotations`: navigate
`responses[0].textAnnotations`; `as_array` failure becomes an `Err`
with the context message `"text_annotations must be array: {payload}"`;
each element is decoded with
`serde_json::from_value(..).expect("textAnnotation json value parse error")`,
so a bad element PANICS instead of returning `Err`. -/
def Response.text_annotations (r : Response) : RustResult (List TextAnnotation) :=
  let v := ((r.response.getKey "responses").getIdx 0).getKey "textAnnotations"
  match v.as_array with
  | none => .err (.SchemaError ("text_annotations must be array: " ++ r.response.toString))
  | some xs =>
      match decodeTAList xs with
      | .ok ts => .ok ts
      | .error _ => .panicked "textAnnotation json value parse error"

/-- Model of `Response::full_text_annotations`: navigate
`responses[0].fullTextAnnotation` and decode the whole tree; the serde
error is propagated with `?` (a returned error, never a panic). -/
def Response.full_text_annotations (r : Response) : RustResult FullTextAnnotation :=
  let v := ((r.response.getKey "responses").getIdx 0).getKey "fullTextAnnotation"
  match decodeFTA v with
  | .ok t => .ok t
  | .error e => .err (.SchemaError e)

/-- The tail of `Client::request` (lines 187–197): once the transport
has produced the JSON payload, check the top-level `error` member; if
it is an object, fail with its serialized text, else wrap the payload
in a `Response`. -/
def handleReply (json_response : Json) : Except GcvError Response :=
  let e := json_response.getKey "error"
  if e.is_object then .error (.ServiceError e.toString)
  else .ok ⟨json_response⟩

/-! ## Validity predicates (`i64`-representable coordinates) -/

def Point.wf (p : Point) : Prop := i64InRange p.x ∧ i64InRange p.y

instance (p : Point) : Decidable p.wf := by
  unfold Point.wf; infer_instance

def pointsWf (ps : List Point) : Prop := ∀ p ∈ ps, p.wf

instance (ps : List Point) : Decidable (pointsWf ps) := by
  unfold pointsWf; infer_instance

def TextAnnotation.wf (t : TextAnnotation) : Prop :=
  pointsWf t.bounding_poly.vertices

instance (t : TextAnnotation) : Decidable t.wf := by
  unfold TextAnnotation.wf; infer_instance

/-! ## Shared shapes and concrete fixtures -/

/-- The canonical JSON shape of a vertex list, shared by `Polygon` and
`BoundingBox` (an object with only the `vertices` member). -/
def verticesJson (ps : List Point) : Json :=
  .obj [("vertices", .arr (ps.map encodePoint))]

/-- Keys of an object's member list. -/
def keysOf (kvs : List (String × Json)) : List String := kvs.map Prod.fst

/-- Members of the literal `ENGINE` annotation payload of the spec and
of the repository's `deserialize_text_annotation` test (no `locale`). -/
def engineKvs : List (String × Json) :=
  [("description", .str "ENGINE"),
   ("boundingPoly", .obj [("vertices", .arr [
     .obj [("x", .intNum 1222), ("y", .intNum 1771)],
     .obj [("x", .intNum 1944), ("y", .intNum 1834)],
     .obj [("x", .intNum 1930), ("y", .intNum 1992)],
     .obj [("x", .intNum 1208), ("y", .intNum 1928)]])])]

def engineJson : Json := .obj engineKvs

/-- The decoded value of `engineJson`. -/
def engineTA : TextAnnotation :=
  ⟨none, "ENGINE", ⟨[⟨1222, 1771⟩, ⟨1944, 1834⟩, ⟨1930, 1992⟩, ⟨1208, 1928⟩]⟩⟩

/-- A flat annotation with `locale` present. -/
def localeTA : TextAnnotation := ⟨some "en", "ENGINE", ⟨[⟨1, 2⟩]⟩⟩

/-- A payload whose `responses[0]` has no `textAnnotations` and no
`fullTextAnnotation` member. -/
def missingResp : Response := ⟨.obj [("responses", .arr [.obj []])]⟩

/-- A payload whose `responses[0].textAnnotations` is a one-element
array of the well-formed `ENGINE` annotation. -/
def demoResp : Response :=
  ⟨.obj [("responses", .arr [.obj [("textAnnotations", .arr [engineJson])]])]⟩

/-- A payload whose `responses[0].textAnnotations` is an array holding
one element (`{}`) that does not decode into a ` TextAnnotation`. -/
def badElementResp : Response :=
  ⟨.obj [("responses", .arr [.obj [("textAnnotations", .arr [.obj []])]])]⟩

/-- A vertex object whose `y` member is missing. -/
def missingYVertex : Json := .obj [("x", .intNum 1)]

/-- A full hierarchical payload: 1 page, 1 block, 1 paragraph. -/
def treeJson : Json :=
  .obj [("pages", .arr [
    .obj [("blocks", .arr [
      .obj [("blockType", .str "TEXT"),
            ("boundingBox", .obj [("vertices", .arr [])]),
            ("confidence", .floatNum (9 / 10 : Rat)),
            ("paragraphs", .arr [
              .obj [("boundingBox", .obj [("vertices", .arr [])]),
                    ("confidence", .floatNum (95 / 100 : Rat)),
                    ("words", .arr [])]])]])]])]

def treeResp : Response :=
  ⟨.obj [("responses", .arr [.obj [("fullTextAnnotation", treeJson)]])]⟩

/-- The decoded tree of `treeJson`. -/
def treeFTA : FullTextAnnotation :=
  ⟨[⟨[⟨"TEXT", ⟨[]⟩, 9 / 10, [⟨⟨[]⟩, 95 / 100, []⟩]⟩]⟩]⟩

/-- A small box whose vertex 3 is down-and-right of vertex 1. -/
def demoBox : BoundingBox := ⟨[⟨0, 0⟩, ⟨1, 2⟩, ⟨5, 6⟩, ⟨7, 8⟩]⟩

/-- A 4-vertex box with `i64`-extreme coordinates: vertex 3 is
down-and-right of vertex 1, yet the `i64` subtraction overflows. -/
def extremeBox : BoundingBox :=
  ⟨[⟨0, 0⟩, ⟨i64Min, i64Min⟩, ⟨0, 0⟩, ⟨i64Max, i64Max⟩]⟩

/-- A raw reply carrying a non-empty top-level `error` object. -/
def errReply : Json :=
  .obj [("error", .obj [("code", .intNum 403), ("message", .str "forbidden")])]

/-- A raw reply with no top-level `error` member. -/
def okReply : Json := .obj [("responses", .arr [.obj []])]

/-! ## Helper lemmas -/

theorem i64Wrap_eq_self (n : Int) (h : i64InRange n) : i64Wrap n = n := by
  obtain ⟨h1, h2⟩ := h
  unfold i64Min at h1
  unfold i64Max at h2
  unfold i64Wrap
  have h0 : (0 : Int) ≤ n + 2 ^ 63 := by omega
  have hlt : n + 2 ^ 63 < 2 ^ 64 := by omega
  rw [Int.emod_eq_of_lt h0 hlt]
  omega

theorem decodePoint_encode (p : Point) (h : p.wf) :
    decodePoint (encodePoint p) = .ok p := by
  obtain ⟨hx, hy⟩ := h
  simp [encodePoint, decodePoint, decodePointGo, decodeI64, hx, hy, Bind.bind, Except.bind]

theorem decodeListWith_encodePoint (ps : List Point) (h : pointsWf ps) :
    decodeListWith decodePoint (ps.map encodePoint) = .ok ps := by
  induction ps with
  | nil => rfl
  | cons p ps ih =>
      have hp : p.wf := h p (by simp)
      have hr : pointsWf ps := fun q hq => h q (by simp [hq])
      simp [decodeListWith, decodePoint_encode p hp, ih hr, Bind.bind, Except.bind]

theorem decodePolygon_verticesJson (ps : List Point) (h : pointsWf ps) :
    decodePolygon (verticesJson ps) = .ok ⟨ps⟩ := by
  simp [verticesJson, decodePolygon, decodePolygonGo, decodeVec,
    decodeListWith_encodePoint ps h, Bind.bind, Except.bind]

theorem decodeBB_verticesJson (ps : List Point) (h : pointsWf ps) :
    decodeBB (verticesJson ps) = .ok ⟨ps⟩ := by
  simp [verticesJson, decodeBB, decodeBBGo, decodeVec,
    decodeListWith_encodePoint ps h, Bind.bind, Except.bind]

/-- The two independently derived vertex-list field loops agree modulo
the final constructor. -/
theorem decodeBBGo_eq_decodePolygonGo (kvs : List (String × Json))
    (acc : Option (List Point)) :
    decodeBBGo kvs acc = (decodePolygonGo kvs acc).map (fun p => ⟨p.vertices⟩) := by
  induction kvs generalizing acc with
  | nil => cases acc <;> rfl
  | cons kv rest ih =>
      obtain ⟨k, v⟩ := kv
      by_cases hk : k = "vertices"
      · subst hk
        cases acc with
        | some _ => simp [decodeBBGo, decodePolygonGo, Except.map]
        | none =>
            cases hv : decodeVec decodePoint v with
            | error e =>
                simp [decodeBBGo, decodePolygonGo, hv, Bind.bind, Except.bind, Except.map]
            | ok vs =>
                simp [decodeBBGo, decodePolygonGo, hv, Bind.bind, Except.bind, ih]
      · simp [decodeBBGo, decodePolygonGo, hk, ih]

theorem decodeBB_eq_decodePolygon (j : Json) :
    decodeBB j = (decodePolygon j).map (fun p => ⟨p.vertices⟩) := by
  cases j <;> simp [decodeBB, decodePolygon, Except.map, decodeBBGo_eq_decodePolygonGo]

/-- A vertex object with no `y` member never decodes into a `Point`. -/
theorem decodePointGo_no_y (kvs : List (String × Json)) (x? : Option Int)
    (h : (keysOf kvs).contains "y" = false) (p : Point) :
    decodePointGo kvs x? none ≠ .ok p := by
  induction kvs generalizing x? with
  | nil => cases x? <;> simp [decodePointGo]
  | cons kv rest ih =>
      obtain ⟨k, v⟩ := kv
      have h' := h
      simp [keysOf] at h'
      have hky : k ≠ "y" := fun hk => h'.1 hk.symm
      have hrest : (keysOf rest).contains "y" = false := by
        simp [keysOf]
        exact h'.2
      by_cases hkx : k = "x"
      · subst hkx
        cases x? with
        | some _ => simp [decodePointGo]
        | none =>
            cases hv : decodeI64 v with
            | error e => simp [decodePointGo, hv, Bind.bind, Except.bind]
            | ok n =>
                simp [decodePointGo, hv, Bind.bind, Except.bind]
                exact ih (some n) hrest
      · simp [decodePointGo, hkx, hky]
        exact ih x? hrest

/-- If the object has no `locale` member, a successful decode leaves
`locale` in the explicit absent state. -/
theorem decodeTAGo_no_locale (kvs : List (String × Json)) (d? : Option String)
    (p? : Option Polygon) (t : TextAnnotation)
    (h : (keysOf kvs).contains "locale" = false)
    (hok : decodeTAGo kvs none d? p? = .ok t) : t.locale = none := by
  induction kvs generalizing d? p? with
  | nil =>
      cases d? with
      | none => simp [decodeTAGo] at hok
      | some d =>
          cases p? with
          | none => simp [decodeTAGo] at hok
          | some p =>
              simp [decodeTAGo] at hok
              rw [← hok]
  | cons kv rest ih =>
      obtain ⟨k, v⟩ := kv
      have h' := h
      simp [keysOf] at h'
      have hkl : k ≠ "locale" := fun hk => h'.1 hk.symm
      have hrest : (keysOf rest).contains "locale" = false := by
        simp [keysOf]
        exact h'.2
      by_cases hkd : k = "description"
      · subst hkd
        cases d? with
        | some _ => simp [decodeTAGo] at hok
        | none =>
            cases hv : decodeString v with
            | error e => simp [decodeTAGo, hv, Bind.bind, Except.bind] at hok
            | ok d =>
                simp [decodeTAGo, hv, Bind.bind, Except.bind] at hok
                exact ih (some d) p? hrest hok
      · by_cases hkp : k = "boundingPoly"
        · subst hkp
          cases p? with
          | some _ => simp [decodeTAGo] at hok
          | none =>
              cases hv : decodePolygon v with
              | error e => simp [decodeTAGo, hv, Bind.bind, Except.bind] at hok
              | ok p =>
                  simp [decodeTAGo, hv, Bind.bind, Except.bind] at hok
                  exact ih d? (some p) hrest hok
        · simp [decodeTAGo, hkl, hkd, hkp] at hok
          exact ih d? p? hrest hok

theorem decodeOptString_encode (l : Option String) :
    decodeOptString (encodeOptString l) = .ok l := by
  cases l <;> rfl

theorem decodePolygon_encode (p : Polygon) (h : pointsWf p.vertices) :
    decodePolygon (encodePolygon p) = .ok p := by
  obtain ⟨vs⟩ := p
  exact decodePolygon_verticesJson vs h

/-! ## Claim theorems -/

/-- C1: for every response payload, if the navigated path
`responses[0].textAnnotations` is absent or not a JSON array (that is,
`as_array` fails on the navigated value), `text_annotations` returns
the typed failure `SchemaError` whose message is the context string
"text_annotations must be array" followed by the displayed payload — an
error result, not a crash; and when the path is an array whose elements
all decode, it returns the decoded sequence in order. -/
theorem text_annotations_spec (r : Response) :
    ((((r.response.getKey "responses").getIdx 0).getKey "textAnnotations").as_array = none →
      r.text_annotations =
        .err (.SchemaError ("text_annotations must be array: " ++ r.response.toString)))
    ∧ (∀ xs ts, ((r.response.getKey "responses").getIdx 0).getKey "textAnnotations" = .arr xs →
        decodeTAList xs = .ok ts → r.text_annotations = .ok ts) := by
  constructor
  · intro h
    simp [Response.text_annotations, h]
  · intro xs ts harr hts
    simp [Response.text_annotations, harr, Json.as_array, hts]

/-- Witness for C1: the missing path concretely yields the
`SchemaError`, and the `ENGINE` payload concretely decodes in order. -/
theorem text_annotations_spec_witness :
    Response.text_annotations missingResp =
      .err (.SchemaError ("text_annotations must be array: " ++ missingResp.response.toString))
    ∧ Response.text_annotations demoResp = .ok [engineTA] :=
  ⟨(text_annotations_spec missingResp).1 rfl,
   (text_annotations_spec demoResp).2 [engineJson] [engineTA] rfl (by rfl)⟩

/-- C2 (code evaluation at the failing input): on the payload
`{"responses":[{"textAnnotations":[{}]}]}` — whose single element does
not decode — the accessor PANICS with the `expect` message instead of
returning the decode failure as an error, contradicting the claim and
the spec's propagation policy (§4.3/§4.4/§7: a typed failure at the
accessor boundary, never a panic). -/
theorem text_annotations_element_panics :
    Response.text_annotations badElementResp =
      .panicked "textAnnotation json value parse error" := by
  rfl

/-- C3 counterexample: in the hierarchical (`fullTextAnnotation`) model
a vertex with a missing coordinate component does NOT decode
successfully — `BoundingBox` uses the same required-`i64` `Point` as the
flat model, so the claimed asymmetry is absent from the code. -/
theorem hierarchical_vertex_requires_both_coords :
    decodePoint missingYVertex = .error "missing field y"
    ∧ decodeBB (.obj [("vertices", .arr [missingYVertex])]) = .error "missing field y" := by
  exact ⟨rfl, rfl⟩

/-- C3 amended: the two bounding-box schemas are kept as two distinct
types, but they are structurally identical rather than asymmetric:
decoding a hierarchical `BoundingBox` agrees with decoding a flat
`Polygon` up to the final constructor, and in both models a vertex
missing a coordinate component fails to decode. -/
theorem box_models_structurally_identical :
    (∀ j, decodeBB j = (decodePolygon j).map (fun p => ⟨p.vertices⟩))
    ∧ (∀ kvs (p : Point), (keysOf kvs).contains "y" = false →
        decodePoint (.obj kvs) ≠ .ok p) := by
  constructor
  · exact decodeBB_eq_decodePolygon
  · intro kvs p h
    exact decodePointGo_no_y kvs none h p

/-- Witness for the amended C3 at concrete inputs. -/
theorem box_models_structurally_identical_witness :
    decodeBB engineJson = (decodePolygon engineJson).map (fun p => ⟨p.vertices⟩)
    ∧ decodePoint (.obj [("x", .intNum 1)]) ≠ .ok ⟨1, 0⟩ :=
  ⟨box_models_structurally_identical.1 engineJson,
   box_models_structurally_identical.2 [("x", .intNum 1)] ⟨1, 0⟩ (by decide)⟩

/-- C4: `full_text_annotations` navigates
`responses[0].fullTextAnnotation` and decodes the whole tree in one
pass: an absent path (navigation yields `Null`) gives a `SchemaError`;
any decode failure of the tree gives a `SchemaError`; a successful
decode gives the whole tree; and the accessor never panics (hence never
a partial tree: the one `decodeFTA` pass either fully succeeds or the
whole call fails). -/
theorem full_text_annotations_spec (r : Response) :
    (((r.response.getKey "responses").getIdx 0).getKey "fullTextAnnotation" = .null →
      r.full_text_annotations = .err (.SchemaError "invalid type"))
    ∧ (∀ t, decodeFTA (((r.response.getKey "responses").getIdx 0).getKey "fullTextAnnotation") =
          .ok t → r.full_text_annotations = .ok t)
    ∧ (∀ e, decodeFTA (((r.response.getKey "responses").getIdx 0).getKey "fullTextAnnotation") =
          .error e → r.full_text_annotations = .err (.SchemaError e))
    ∧ (∀ m, r.full_text_annotations ≠ .panicked m) := by
  refine ⟨?_, ?_, ?_, ?_⟩
  · intro h
    simp [Response.full_text_annotations, h, decodeFTA]
  · intro t h
    simp [Response.full_text_annotations, h]
  · intro e h
    simp [Response.full_text_annotations, h]
  · intro m
    unfold Response.full_text_annotations
    cases hd : decodeFTA (((r.response.getKey "responses").getIdx 0).getKey "fullTextAnnotation") <;>
      simp [hd]

/-- Witness for C4: the absent path concretely errors, and a concrete
page→block→paragraph tree decodes whole. -/
theorem full_text_annotations_spec_witness :
    Response.full_text_annotations missingResp = .err (.SchemaError "invalid type")
    ∧ Response.full_text_annotations treeResp = .ok treeFTA :=
  ⟨(full_text_annotations_spec missingResp).1 rfl,
   (full_text_annotations_spec treeResp).2.1 treeFTA (by rfl)⟩

/-- C5: for every bounding box with exactly 4 vertices, `width` is
vertex 3's x minus vertex 1's x (the code's `i64` subtraction),
`height` likewise on y, and `left_top` returns the vertex at index 1;
none of the three panics. -/
theorem geometry_formulas (bb : BoundingBox) (h : bb.vertices.length = 4) :
    bb.left_top = some (bb.vertices.get ⟨1, by omega⟩)
    ∧ bb.width = some (i64Sub (bb.vertices.get ⟨3, by omega⟩).x (bb.vertices.get ⟨1, by omega⟩).x)
    ∧ bb.height = some (i64Sub (bb.vertices.get ⟨3, by omega⟩).y (bb.vertices.get ⟨1, by omega⟩).y) := by
  obtain ⟨vs⟩ := bb
  rcases vs with _ | ⟨a, vs⟩
  · simp at h
  rcases vs with _ | ⟨b, vs⟩
  · simp at h
  rcases vs with _ | ⟨c, vs⟩
  · simp at h
  rcases vs with _ | ⟨d, vs⟩
  · simp at h
  rcases vs with _ | ⟨e, vs⟩
  · exact ⟨rfl, rfl, rfl⟩
  · simp at h

/-- Witness for C5 at a concrete 4-vertex box. -/
theorem geometry_formulas_witness :
    demoBox.left_top = some ⟨1, 2⟩
    ∧ demoBox.width = some 6
    ∧ demoBox.height = some 6 := by
  have h := geometry_formulas demoBox rfl
  simpa [demoBox, i64Sub, i64Wrap] using h

/-- C6 counterexample: a valid 4-vertex box (all coordinates
`i64`-representable) with vertex 3 down-and-right of vertex 1 whose
width and height are NEGATIVE: the `i64` subtraction wraps at the
extreme values, so `width ≥ 0` fails as claimed-about. -/
theorem width_nonneg_fails_at_extremes :
    extremeBox.vertices.length = 4
    ∧ pointsWf extremeBox.vertices
    ∧ extremeBox.vertices.get? 1 = some ⟨i64Min, i64Min⟩
    ∧ extremeBox.vertices.get? 3 = some ⟨i64Max, i64Max⟩
    ∧ i64Min ≤ i64Max
    ∧ extremeBox.width = some (-1)
    ∧ extremeBox.height = some (-1)
    ∧ ¬(0 : Int) ≤ -1 := by
  refine ⟨rfl, by decide, rfl, rfl, by decide, by decide, by decide, by decide⟩

/-- C6 amended: for every valid 4-vertex box with vertex 3
down-and-right of vertex 1, PROVIDED the coordinate differences fit in
the `i64` range (no subtraction overflow), `width` and `height` equal
the exact differences and are nonnegative, and `left_top` is
vertex 1. -/
theorem width_height_nonneg (bb : BoundingBox) (h : bb.vertices.length = 4)
    (hx : (bb.vertices.get ⟨1, by omega⟩).x ≤ (bb.vertices.get ⟨3, by omega⟩).x)
    (hy : (bb.vertices.get ⟨1, by omega⟩).y ≤ (bb.vertices.get ⟨3, by omega⟩).y)
    (hfx : (bb.vertices.get ⟨3, by omega⟩).x - (bb.vertices.get ⟨1, by omega⟩).x ≤ i64Max)
    (hfy : (bb.vertices.get ⟨3, by omega⟩).y - (bb.vertices.get ⟨1, by omega⟩).y ≤ i64Max) :
    bb.width = some ((bb.vertices.get ⟨3, by omega⟩).x - (bb.vertices.get ⟨1, by omega⟩).x)
    ∧ bb.height = some ((bb.vertices.get ⟨3, by omega⟩).y - (bb.vertices.get ⟨1, by omega⟩).y)
    ∧ (∀ w, bb.width = some w → 0 ≤ w)
    ∧ (∀ ht, bb.height = some ht → 0 ≤ ht)
    ∧ bb.left_top = some (bb.vertices.get ⟨1, by omega⟩) := by
  obtain ⟨vs⟩ := bb
  rcases vs with _ | ⟨a, vs⟩
  · simp at h
  rcases vs with _ | ⟨b, vs⟩
  · simp at h
  rcases vs with _ | ⟨c, vs⟩
  · simp at h
  rcases vs with _ | ⟨d, vs⟩
  · simp at h
  rcases vs with _ | ⟨e, vs⟩
  swap
  · simp at h
  simp only [List.get] at hx hy hfx hfy
  have hminx : i64Min ≤ d.x - b.x := by
    have : (0 : Int) ≤ d.x - b.x := by omega
    have hneg : i64Min ≤ 0 := by decide
    omega
  have hminy : i64Min ≤ d.y - b.y := by
    have : (0 : Int) ≤ d.y - b.y := by omega
    have hneg : i64Min ≤ 0 := by decide
    omega
  have hwx : i64Sub d.x b.x = d.x - b.x := i64Wrap_eq_self _ ⟨hminx, hfx⟩
  have hwy : i64Sub d.y b.y = d.y - b.y := i64Wrap_eq_self _ ⟨hminy, hfy⟩
  refine ⟨?_, ?_, ?_, ?_, rfl⟩
  · simp [BoundingBox.width, hwx]
    rfl
  · simp [BoundingBox.height, hwy]
    rfl
  · intro w hw
    simp [BoundingBox.width, hwx] at hw
    omega
  · intro ht hht
    simp [BoundingBox.height, hwy] at hht
    omega

/-- Witness for the amended C6 at a concrete box. -/
theorem width_height_nonneg_witness :
    demoBox.width = some 6
    ∧ demoBox.height = some 6
    ∧ (∀ w, demoBox.width = some w → 0 ≤ w)
    ∧ (∀ ht, demoBox.height = some ht → 0 ≤ ht)
    ∧ demoBox.left_top = some ⟨1, 2⟩ := by
  have h := width_height_nonneg demoBox rfl (by decide) (by decide) (by decide) (by decide)
  simpa [demoBox] using h

/-- C7: for every flat annotation whose coordinates are
`i64`-representable (as all values decoded from the wire are), encoding
to the JSON shape and decoding back yields the original value,
field-for-field, whether `locale` is present or absent. -/
theorem ta_roundtrip (t : TextAnnotation) (h : t.wf) : decodeTA (encodeTA t) = .ok t := by
  obtain ⟨l, d, p⟩ := t
  have hp : pointsWf p.vertices := h
  simp [encodeTA, decodeTA, decodeTAGo, decodeOptString_encode,
    decodeString, decodePolygon_encode p hp, Bind.bind, Except.bind]

/-- Witness for C7: round trip of concrete annotations with `locale`
absent and with `locale` present. -/
theorem ta_roundtrip_witness :
    decodeTA (encodeTA engineTA) = .ok engineTA
    ∧ decodeTA (encodeTA localeTA) = .ok localeTA :=
  ⟨ta_roundtrip engineTA (by decide), ta_roundtrip localeTA (by decide)⟩

/-- C8: decoding a flat annotation whose JSON has no `locale` member
yields the explicit absent state (`none`, not an empty string); and the
literal `ENGINE` payload decodes to description `"ENGINE"`, absent
locale, exactly 4 vertices, with vertex 0 at (1222, 1771). -/
theorem locale_absent_decodes_to_none :
    (∀ kvs (t : TextAnnotation), (keysOf kvs).contains "locale" = false →
        decodeTA (.obj kvs) = .ok t → t.locale = none)
    ∧ decodeTA engineJson = .ok engineTA
    ∧ engineTA.description = "ENGINE"
    ∧ engineTA.locale = none
    ∧ engineTA.bounding_poly.vertices.length = 4
    ∧ engineTA.bounding_poly.vertices.get? 0 = some ⟨1222, 1771⟩ := by
  refine ⟨?_, by rfl, rfl, rfl, rfl, rfl⟩
  intro kvs t h hok
  exact decodeTAGo_no_locale kvs none none t h hok

/-- Witness for C8's quantified part at the concrete `ENGINE` members. -/
theorem locale_absent_decodes_to_none_witness :
    engineTA.locale = none :=
  locale_absent_decodes_to_none.1 engineKvs engineTA (by decide) (by rfl)

/-- C9: when the raw reply's top level carries a non-empty `error`
object, request handling fails with a `ServiceError` carrying that
object's serialized text and constructs no `Response` (so neither
accessor is reachable); when no `error` object is present, the payload
is wrapped in a `Response` and returned. -/
theorem request_error_object (v : Json) :
    (∀ kvs, v.getKey "error" = .obj kvs → kvs ≠ [] →
        handleReply v = .error (.ServiceError (Json.toString (.obj kvs))))
    ∧ ((v.getKey "error").is_object = false → handleReply v = .ok ⟨v⟩) := by
  constructor
  · intro kvs hk _
    simp [handleReply, hk, Json.is_object]
  · intro h
    simp [handleReply, h]

/-- Witness for C9 at a concrete error reply and a concrete clean
reply. -/
theorem request_error_object_witness :
    handleReply errReply =
      .error (.ServiceError
        (Json.toString (.obj [("code", .intNum 403), ("message", .str "forbidden")])))
    ∧ handleReply okReply = .ok ⟨okReply⟩ :=
  ⟨(request_error_object errReply).1 _ rfl (List.cons_ne_nil _ _),
   (request_error_object okReply).2 rfl⟩

/-- C10: vertex-list decoding never checks the 4-vertex arity: for
every `i64`-representable vertex list of any length n (including 0 and
n ≠ 4) both the flat and the hierarchical box decode successfully with
exactly those n vertices — and the geometry operations on such a
decoded short box then hit the out-of-bounds panic (modelled `none`). -/
theorem decode_no_arity_check :
    (∀ ps : List Point, pointsWf ps →
        decodePolygon (verticesJson ps) = .ok ⟨ps⟩ ∧ decodeBB (verticesJson ps) = .ok ⟨ps⟩)
    ∧ BoundingBox.left_top ⟨[]⟩ = none
    ∧ BoundingBox.width ⟨[⟨0, 0⟩]⟩ = none
    ∧ BoundingBox.height ⟨[⟨0, 0⟩]⟩ = none := by
  refine ⟨?_, rfl, rfl, rfl⟩
  intro ps h
  exact ⟨decodePolygon_verticesJson ps h, decodeBB_verticesJson ps h⟩

/-- Witness for C10 at n = 0 and n = 1. -/
theorem decode_no_arity_check_witness :
    (decodePolygon (verticesJson []) = .ok ⟨[]⟩ ∧ decodeBB (verticesJson []) = .ok ⟨[]⟩)
    ∧ (decodePolygon (verticesJson [⟨1, 2⟩]) = .ok ⟨[⟨1, 2⟩]⟩
       ∧ decodeBB (verticesJson [⟨1, 2⟩]) = .ok ⟨[⟨1, 2⟩]⟩) :=
  ⟨decode_no_arity_check.1 [] (by decide), decode_no_arity_check.1 [⟨1, 2⟩] (by decide)⟩

end Gcv
